import Mathlib

/-!
# Verification of the SuperTetris 2D rigid-body physics core

Shallow embedding of the C++ physics engine (`TetrisTowers::PhysicsEngine`,
files `src/cpp_physics/PhysicsEngine.cpp`, `src/cpp_physics/include/PhysicsEngine.h`
and `src/python_logic/cpp-physics/PhysicsEngine.cpp`).

Modelling conventions:
* The C++ `float` scalar is embedded as `ℚ` (exact arithmetic standing for the
  real numbers the code approximates).
* `std::sqrt` is embedded as `ratSqrt`, which is exact whenever the argument is
  the square of a rational (`ratSqrt_mul_self`); every comparison of the form
  `length() > t` with a non-negative constant `t` is embedded in the equivalent
  squared form (`sqrt m > t ↔ m > t*t` for `t ≥ 0`, `sqrt` being monotone).
* `cos`/`sin` of a body's rotation angle are not rational functions, so the
  geometric routines take a `Trig` oracle standing for the real cosine/sine at
  the stored angle values; concrete instances supply the exact values at the
  angles a theorem uses (e.g. cos 0 = 1).
* `std::unordered_map<std::string, PhysicsBody>` is embedded as an association
  list `List (String × PhysicsBody)`; iteration order is the list order.
* The collision callback is embedded by returning the list of contacts that
  the step reports (one callback invocation per list element).
* `generateUniqueId()`'s randomness is out of scope; `createBody` takes the
  fresh identifier as an explicit argument.
-/

namespace TetrisTowers

set_option allowUnsafeReducibility true

attribute [local semireducible] Rat.add Rat.mul Rat.inv Rat.sub Rat.div Rat.neg Rat.blt

/-- Largest `k ≤ bound` with `k*k ≤ n` (0 when there is none): a structurally
recursive integer square root used by the `ℚ` embedding of `std::sqrt`. -/
def natSqrtBelow : Nat → Nat → Nat
  | 0, _ => 0
  | k + 1, n => if (k + 1) * (k + 1) ≤ n then k + 1 else natSqrtBelow k n

/-- Embedding of `std::sqrt` on `ℚ`: exact whenever the argument is a perfect
rational square (see `ratSqrt_mul_self`), which covers every use in the
theorems below. -/
def ratSqrt (q : ℚ) : ℚ :=
  (natSqrtBelow q.num.toNat q.num.toNat : ℚ) / (natSqrtBelow q.den q.den : ℚ)

/-- `Vector2` (header `PhysicsEngine.h`): two float components. -/
structure Vector2 where
  x : ℚ
  y : ℚ
deriving DecidableEq

instance : Add Vector2 := ⟨fun a b => ⟨a.x + b.x, a.y + b.y⟩⟩

instance : Sub Vector2 := ⟨fun a b => ⟨a.x - b.x, a.y - b.y⟩⟩

/-- `Vector2::operator*(float scalar)`. -/
def Vector2.smul (v : Vector2) (s : ℚ) : Vector2 := ⟨v.x * s, v.y * s⟩

/-- `Vector2::dot`. -/
def Vector2.dot (a b : Vector2) : ℚ := a.x * b.x + a.y * b.y

/-- The radicand of `Vector2::length()`. -/
def Vector2.lengthSq (v : Vector2) : ℚ := v.x * v.x + v.y * v.y

/-- `Vector2::length() = sqrt(x*x + y*y)`. -/
def Vector2.length (v : Vector2) : ℚ := ratSqrt v.lengthSq

/-- `Vector2::normalized()`: divides by the length when it is positive,
returns the vector unchanged otherwise (the zero-length guard). -/
def Vector2.normalized (v : Vector2) : Vector2 :=
  if 0 < v.length then ⟨v.x / v.length, v.y / v.length⟩ else v

/-- `MaterialType` enumeration. -/
inductive MaterialType where
  | normal
  | heavy
  | light
  | slippery
  | sticky
  | bouncy
deriving DecidableEq

/-- `static_cast<int>(material)` used by the serializer. -/
def MaterialType.toInt : MaterialType → Int
  | .normal => 0
  | .heavy => 1
  | .light => 2
  | .slippery => 3
  | .sticky => 4
  | .bouncy => 5

/-- `static_cast<MaterialType>(int)` used by the deserializer.  Out-of-range
casts are undefined behaviour in the source and never arise from a
round trip; they default to `normal` here. -/
def materialOfInt : Int → MaterialType
  | 1 => .heavy
  | 2 => .light
  | 3 => .slippery
  | 4 => .sticky
  | 5 => .bouncy
  | _ => .normal

/-- `PhysicsBody` (header `PhysicsEngine.h`). -/
structure PhysicsBody where
  id : String
  position : Vector2
  velocity : Vector2
  force : Vector2
  rotation : ℚ
  angularVelocity : ℚ
  torque : ℚ
  mass : ℚ
  inverseMass : ℚ
  inertia : ℚ
  inverseInertia : ℚ
  restitution : ℚ
  friction : ℚ
  isStatic : Bool
  isActive : Bool
  material : MaterialType
  width : ℚ
  height : ℚ
deriving DecidableEq

/-- `PhysicsBody::updateMassData()`.  In the static branch only the inverse
terms are zeroed; otherwise `inverseMass = 1/mass` and the rectangle inertia
formula is applied.  (Over `ℚ`, `1/0 = 0`; in IEEE float the same division
yields `+inf` — either way a zero mass produces no valid positive inverse.) -/
def PhysicsBody.updateMassData (b : PhysicsBody) : PhysicsBody :=
  if b.isStatic then
    { b with inverseMass := 0, inverseInertia := 0 }
  else
    let inertia := b.mass * (b.width * b.width + b.height * b.height) / 12
    { b with inverseMass := 1 / b.mass, inertia := inertia, inverseInertia := 1 / inertia }

/-- `PhysicsBody::applyForce`. -/
def PhysicsBody.applyForce (b : PhysicsBody) (f : Vector2) : PhysicsBody :=
  { b with force := b.force + f }

/-- `PhysicsBody::applyImpulse`. -/
def PhysicsBody.applyImpulse (b : PhysicsBody) (impulse contactPoint : Vector2) : PhysicsBody :=
  let r := contactPoint - b.position
  let cross := r.x * impulse.y - r.y * impulse.x
  { b with
    velocity := b.velocity + impulse.smul b.inverseMass,
    angularVelocity := b.angularVelocity + cross * b.inverseInertia }

/-- `PhysicsBody::getVelocityAtPoint`. -/
def PhysicsBody.getVelocityAtPoint (b : PhysicsBody) (point : Vector2) : Vector2 :=
  let r := point - b.position
  let tangent : Vector2 := ⟨-r.y, r.x⟩
  b.velocity + tangent.smul b.angularVelocity

/-- The body produced by the `PhysicsBody` default constructor (which ends by
calling `updateMassData`). -/
def defaultBody : PhysicsBody :=
  PhysicsBody.updateMassData
    { id := "", position := ⟨0, 0⟩, velocity := ⟨0, 0⟩, force := ⟨0, 0⟩,
      rotation := 0, angularVelocity := 0, torque := 0, mass := 1, inverseMass := 1,
      inertia := 0, inverseInertia := 0, restitution := 1/2, friction := 3/10,
      isStatic := false, isActive := true, material := .normal, width := 1, height := 1 }

/-- `Contact`: the C++ struct stores `PhysicsBody*` pointers; bodies are
referenced here by their unique identifiers. -/
structure Contact where
  idA : String
  idB : String
  point : Vector2
  normal : Vector2
  penetration : ℚ
deriving DecidableEq

/-- The mutable state of a `PhysicsEngine` instance. -/
structure EngineState where
  bodies : List (String × PhysicsBody)
  contacts : List Contact
  gravity : Vector2
  timeStep : ℚ
  velocityIterations : Int
  positionIterations : Int
  isRunning : Bool
  isPaused : Bool
deriving DecidableEq

/-- State set up by the `PhysicsEngine` constructor. -/
def initialState : EngineState :=
  { bodies := [], contacts := [], gravity := ⟨0, -49/5⟩, timeStep := 1/60,
    velocityIterations := 8, positionIterations := 3,
    isRunning := false, isPaused := false }

/-- Oracle standing for the real `cos`/`sin` evaluated at the rational angle
values stored in body fields (see the module docstring). -/
structure Trig where
  cos : ℚ → ℚ
  sin : ℚ → ℚ

/-- A `Trig` oracle adequate for bodies whose rotation is `0`
(`cos 0 = 1`, `sin 0 = 0`); theorems using it only ever evaluate it at `0`. -/
def trigZero : Trig := { cos := fun _ => 1, sin := fun _ => 0 }

/-- `PhysicsEngine::createBody`: copies the body, overwrites its identifier
with a freshly generated one, and stores it with no validation whatsoever.
The random `generateUniqueId()` is modelled by the explicit `freshId`. -/
def createBody (st : EngineState) (freshId : String) (b : PhysicsBody) :
    EngineState × String :=
  let nb := { b with id := freshId }
  ({ st with bodies := st.bodies ++ [(freshId, nb)] }, freshId)

/-- Replace the binding of key `k` in an association list (the write through
`m_bodies` the collision resolver performs via a body pointer). -/
def setBody (bs : List (String × PhysicsBody)) (k : String) (b : PhysicsBody) :
    List (String × PhysicsBody) :=
  bs.map (fun p => if p.1 = k then (k, b) else p)

/-- `PhysicsBody::getVertices()`: the four rectangle corners rotated by the
body's orientation and translated to its position, in the fixed winding order
of the source. -/
def getVertices (T : Trig) (b : PhysicsBody) : List Vector2 :=
  let cosA := T.cos b.rotation
  let sinA := T.sin b.rotation
  let hx := b.width / 2
  let hy := b.height / 2
  [ ⟨b.position.x + cosA * (-hx) - sinA * (-hy), b.position.y + sinA * (-hx) + cosA * (-hy)⟩,
    ⟨b.position.x + cosA * hx - sinA * (-hy), b.position.y + sinA * hx + cosA * (-hy)⟩,
    ⟨b.position.x + cosA * hx - sinA * hy, b.position.y + sinA * hx + cosA * hy⟩,
    ⟨b.position.x + cosA * (-hx) - sinA * hy, b.position.y + sinA * (-hx) + cosA * hy⟩ ]

/-- `PhysicsEngine::checkAABBCollision`: axis-aligned boxes from
`position ± half-extents`, ignoring rotation. -/
def checkAABBCollision (bodyA bodyB : PhysicsBody) : Bool :=
  let minAx := bodyA.position.x - bodyA.width / 2
  let maxAx := bodyA.position.x + bodyA.width / 2
  let minAy := bodyA.position.y - bodyA.height / 2
  let maxAy := bodyA.position.y + bodyA.height / 2
  let minBx := bodyB.position.x - bodyB.width / 2
  let maxBx := bodyB.position.x + bodyB.width / 2
  let minBy := bodyB.position.y - bodyB.height / 2
  let maxBy := bodyB.position.y + bodyB.height / 2
  decide (minBx ≤ maxAx ∧ minAx ≤ maxBx ∧ minBy ≤ maxAy ∧ minAy ≤ maxBy)

/-- Minimum of a projection list.  The C++ initialises the accumulator with
`std::numeric_limits<float>::max()` and folds `std::min`; on the non-empty
vertex lists produced by `getVertices` that equals the list minimum embedded
here. -/
def listMin : List ℚ → ℚ
  | [] => 0
  | x :: xs => xs.foldl min x

/-- Maximum of a projection list (accumulator `-FLT_MAX` in the source). -/
def listMax : List ℚ → ℚ
  | [] => 0
  | x :: xs => xs.foldl max x

/-- `PhysicsEngine::checkSeparatingAxis`: projects both vertex lists onto the
axis; a negative projection overlap proves separation (`none`); otherwise the
overlap and the sign-adjusted axis are reported. -/
def checkSeparatingAxis (vsA vsB : List Vector2) (axis : Vector2) :
    Option (ℚ × Vector2) :=
  let projA := vsA.map (fun v => v.dot axis)
  let projB := vsB.map (fun v => v.dot axis)
  let minA := listMin projA
  let maxA := listMax projA
  let minB := listMin projB
  let maxB := listMax projB
  let overlap := min maxA maxB - max minA minB
  if overlap < 0 then none
  else some (overlap, if minA < minB then axis.smul (-1) else axis)

/-- Outward normals of the four edges of a rectangle's vertex list, normalised
(the candidate separating axes the source collects for one body). -/
def edgeNormals : List Vector2 → List Vector2
  | [v1, v2, v3, v4] =>
      [ (⟨-(v2 - v1).y, (v2 - v1).x⟩ : Vector2).normalized,
        (⟨-(v3 - v2).y, (v3 - v2).x⟩ : Vector2).normalized,
        (⟨-(v4 - v3).y, (v4 - v3).x⟩ : Vector2).normalized,
        (⟨-(v1 - v4).y, (v1 - v4).x⟩ : Vector2).normalized ]
  | _ => []

/-- The axis loop of `checkOBBCollision`: test every axis, abort with `none`
on a separating axis, otherwise keep the strictly smallest overlap.  The
initial accumulator embeds the `FLT_MAX` sentinel of the source. -/
def runAxes (vsA vsB : List Vector2) : List Vector2 → ℚ × Vector2 → Option (ℚ × Vector2)
  | [], best => some best
  | a :: rest, best =>
    match checkSeparatingAxis vsA vsB a with
    | none => none
    | some (ov, n) => runAxes vsA vsB rest (if ov < best.1 then (ov, n) else best)

/-- `FLT_MAX` sentinel for the minimum-overlap accumulator (a numeral far
above every overlap arising below; the source uses
`std::numeric_limits<float>::max()`). -/
def fltMax : ℚ := 340282366920938463463374607431768211456

/-- The contact-construction tail of `checkOBBCollision`: on separation,
propagate "no collision"; otherwise flip the minimal axis toward
`centerB - centerA` and report penetration and the midpoint contact point. -/
def contactFromAxes (bodyA bodyB : PhysicsBody) : Option (ℚ × Vector2) → Option Contact
  | none => none
  | some (minOverlap, minAxis) =>
    let direction := bodyB.position - bodyA.position
    let n := if direction.dot minAxis < 0 then minAxis.smul (-1) else minAxis
    some { idA := bodyA.id, idB := bodyB.id,
           point := bodyA.position + direction.smul (1/2),
           normal := n, penetration := minOverlap }

/-- `PhysicsEngine::checkOBBCollision` (the separating-axis narrow phase):
runs the axis loop and builds the contact — normal flipped toward
`centerB - centerA`, penetration the minimal overlap, point the midpoint of
the two centers — or returns `none`. -/
def checkOBBCollision (T : Trig) (bodyA bodyB : PhysicsBody) : Option Contact :=
  let vsA := getVertices T bodyA
  let vsB := getVertices T bodyB
  let axes := edgeNormals vsA ++ edgeNormals vsB
  contactFromAxes bodyA bodyB (runAxes vsA vsB axes (fltMax, ⟨0, 0⟩))

/-- `PhysicsEngine::checkCollision`: AABB rejection first, then the
separating-axis narrow phase. -/
def checkCollision (T : Trig) (bodyA bodyB : PhysicsBody) : Option Contact :=
  if checkAABBCollision bodyA bodyB then checkOBBCollision T bodyA bodyB else none

/-- All unordered pairs `i < j` in iteration order (the double loop of
`detectCollisions`). -/
def allPairs : List α → List (α × α)
  | [] => []
  | x :: xs => xs.map (fun y => (x, y)) ++ allPairs xs

/-- `PhysicsEngine::detectCollisions`: the contacts found this step, in the
order in which the collision callback is invoked for them. -/
def detectCollisions (T : Trig) (st : EngineState) : List Contact :=
  (allPairs (st.bodies.map Prod.snd)).filterMap (fun p => checkCollision T p.1 p.2)

/-- The per-contact work of `PhysicsEngine::resolveCollisions`: normal
impulse, friction impulse and positional correction, exactly as sequenced in
the source (the friction tangent is computed from the pre-impulse relative
velocity, which the source keeps in a local variable). -/
def resolveContact (a b : PhysicsBody) (c : Contact) : PhysicsBody × PhysicsBody :=
  if a.isStatic && b.isStatic then (a, b)
  else
    let relVel := b.getVelocityAtPoint c.point - a.getVelocityAtPoint c.point
    let velAlongNormal := relVel.dot c.normal
    if 0 < velAlongNormal then (a, b)
    else
      let e := min a.restitution b.restitution
      let j := -(1 + e) * velAlongNormal / (a.inverseMass + b.inverseMass)
      let impulse := c.normal.smul j
      let a1 := if a.isStatic then a else a.applyImpulse (impulse.smul (-1)) c.point
      let b1 := if b.isStatic then b else b.applyImpulse impulse c.point
      let tangent0 := relVel - c.normal.smul velAlongNormal
      let tl := tangent0.length
      let a2b2 :=
        if 1/10000 < tl then
          let tangent := tangent0.smul (1 / tl)
          let jt0 := -(relVel.dot tangent) / (a.inverseMass + b.inverseMass)
          let friction := (a.friction + b.friction) * (1/2)
          let maxJt := j * friction
          let jt := max (-maxJt) (min jt0 maxJt)
          let fImpulse := tangent.smul jt
          ( (if a.isStatic then a1 else a1.applyImpulse (fImpulse.smul (-1)) c.point),
            (if b.isStatic then b1 else b1.applyImpulse fImpulse c.point) )
        else (a1, b1)
      let percent : ℚ := 1/5
      let slop : ℚ := 1/100
      let correction0 := c.normal.smul (max (c.penetration - slop) 0 * percent)
      let correction := correction0.smul (a.inverseMass + b.inverseMass)
      let a3 := if a.isStatic then a2b2.1
        else { a2b2.1 with position := a2b2.1.position - correction.smul a.inverseMass }
      let b3 := if b.isStatic then a2b2.2
        else { a2b2.2 with position := a2b2.2.position + correction.smul b.inverseMass }
      (a3, b3)

/-- `PhysicsEngine::resolveCollisions`: resolve the stored contacts in order;
the C++ contacts hold body pointers, embedded here as identifier lookups into
the current store. -/
def resolveCollisions (st : EngineState) : EngineState :=
  { st with bodies := st.contacts.foldl (fun bs c =>
      match List.lookup c.idA bs, List.lookup c.idB bs with
      | some a, some b =>
          let r := resolveContact a b c
          setBody (setBody bs c.idA r.1) c.idB r.2
      | _, _ => bs) st.bodies }

/-- The per-body work of `PhysicsEngine::integrate` (`src/cpp_physics`
variant): gravity accumulated as a force, semi-implicit velocity update,
multiplicative damping `0.98`, position/rotation integration, force and
torque reset. -/
def integrateBody (g : Vector2) (dt : ℚ) (b : PhysicsBody) : PhysicsBody :=
  let b0 := b.applyForce (g.smul b.mass)
  let v := b0.velocity + (b0.force.smul b0.inverseMass).smul dt
  let w := b0.angularVelocity + b0.torque * b0.inverseInertia * dt
  let v1 := v.smul (49/50)
  let w1 := w * (49/50)
  { b0 with
    velocity := v1,
    angularVelocity := w1,
    position := b0.position + v1.smul dt,
    rotation := b0.rotation + w1 * dt,
    force := ⟨0, 0⟩,
    torque := 0 }

/-- `PhysicsEngine::integrate`: every non-static active body is stepped,
static or inactive bodies are skipped. -/
def integrate (st : EngineState) (dt : ℚ) : EngineState :=
  { st with bodies := st.bodies.map (fun p =>
      if p.2.isStatic || !p.2.isActive then p
      else (p.1, integrateBody st.gravity dt p.2)) }

/-- `PhysicsEngine::update`: a no-op while paused, otherwise
detect → resolve → integrate.  The second component is the list of contacts
passed to the collision callback (empty = no invocation). -/
def update (T : Trig) (st : EngineState) (dt : ℚ) : EngineState × List Contact :=
  if st.isPaused then (st, [])
  else
    let cs := detectCollisions T st
    let st1 := resolveCollisions { st with contacts := cs }
    (integrate st1 dt, cs)

/-- The loop body of `PhysicsEngine::applyExplosion`: a body within `radius`
of `center` receives one accumulated force `normalized(direction) *
(force * (1 - distance/radius))`; any other body is left untouched. -/
def explodedBody (center : Vector2) (radius force : ℚ) (b : PhysicsBody) : PhysicsBody :=
  let direction := b.position - center
  let distance := direction.length
  if distance ≤ radius then
    let strength := force * (1 - distance / radius)
    b.applyForce (direction.normalized.smul strength)
  else b

/-- `PhysicsEngine::applyExplosion` (`src/python_logic/cpp-physics` variant):
applies `explodedBody` to every stored body — the source has no `isActive`
filter in this loop. -/
def applyExplosion (st : EngineState) (center : Vector2) (radius force : ℚ) :
    EngineState :=
  { st with bodies := st.bodies.map (fun p => (p.1, explodedBody center radius force p.2)) }

/-- `PhysicsEngine::checkTowerStability` phase 1: look up every listed
identifier, failing if any is absent (the early `return false` of the
source). -/
def lookupBlocks (st : EngineState) : List String → Option (List PhysicsBody)
  | [] => some []
  | i :: rest =>
    match List.lookup i st.bodies with
    | some b => (lookupBlocks st rest).map (fun bs => b :: bs)
    | none => none

/-- The velocity test of `checkTowerStability`:
`velocity.length() > 0.1 || |angularVelocity| > 0.1`, with the length
comparison in the equivalent squared form (`sqrt m > 1/10 ↔ m > 1/100`). -/
def exceedsThreshold (b : PhysicsBody) : Bool :=
  decide ((1/100 : ℚ) < b.velocity.lengthSq) || decide ((1/10 : ℚ) < |b.angularVelocity|)

/-- The lowest-block scan of `checkTowerStability`: starting from the
`FLT_MAX` sentinel, the first block attaining the minimal `position.y` wins
(strict `<` updates only). -/
def lowestBlock : List PhysicsBody → Option PhysicsBody
  | [] => none
  | b :: rest => some (rest.foldl (fun acc x => if x.position.y < acc.position.y then x else acc) b)

/-- Total mass accumulated by `checkTowerStability`. -/
def massSum (blocks : List PhysicsBody) : ℚ :=
  blocks.foldl (fun acc b => acc + b.mass) 0

/-- Mass-weighted position sum accumulated by `checkTowerStability`. -/
def weightedPos (blocks : List PhysicsBody) : Vector2 :=
  blocks.foldl (fun acc b => acc + b.position.smul b.mass) ⟨0, 0⟩

/-- `PhysicsEngine::checkTowerStability`. -/
def checkTowerStability (st : EngineState) (ids : List String) : Bool :=
  if ids.isEmpty then true
  else
    match lookupBlocks st ids with
    | none => false
    | some blocks =>
      if blocks.any exceedsThreshold then false
      else
        match lowestBlock blocks with
        | none => false
        | some lowest =>
          let total := massSum blocks
          let com := if 0 < total then (weightedPos blocks).smul (1 / total)
                     else weightedPos blocks
          let baseLeft := lowest.position.x - lowest.width / 2
          let baseRight := lowest.position.x + lowest.width / 2
          decide (baseLeft ≤ com.x ∧ com.x ≤ baseRight)

/-- The structured-record data model of the `nlohmann::json` values the state
codec exchanges (the textual encoding itself is an opaque codec per the spec's
scope section; `none` at the `deserializeFromJson` entry stands for a string
`json::parse` rejects). -/
inductive Json where
  | null : Json
  | bool : Bool → Json
  | num : ℚ → Json
  | str : String → Json
  | arr : List Json → Json
  | obj : List (String × Json) → Json

/-- Non-const `json::operator[]` as read by the deserializer: member lookup on
an object, `null` for a missing member, and `null`-propagation when indexing
into `null` (the source's reads of absent keys observe the inserted `null`). -/
def Json.getMember : Json → String → Json
  | .obj kvs, k => ((kvs.lookup k).getD .null)
  | _, _ => .null

/-- Range-for over a `json` value: an array yields its elements, `null` is an
empty range, an object yields its values, a primitive yields itself once
(nlohmann iteration semantics). -/
def Json.elems : Json → List Json
  | .arr xs => xs
  | .null => []
  | .obj kvs => kvs.map Prod.snd
  | j => [j]

/-- Conversion of a `json` value to `float`; a non-number throws
(`type_error.302`), embedded as `none`. -/
def Json.asNum : Json → Option ℚ
  | .num q => some q
  | _ => none

/-- Conversion of a `json` value to `bool`; a non-boolean throws. -/
def Json.asBool : Json → Option Bool
  | .bool b => some b
  | _ => none

/-- Conversion of a `json` value to `std::string`; a non-string throws. -/
def Json.asString : Json → Option String
  | .str s => some s
  | _ => none

/-- Conversion of a `json` number to `int` (`static_cast` truncation; every
serialized iteration count is an integer, so `floor` is exact there); a
non-number throws. -/
def Json.asInt : Json → Option Int
  | .num q => some q.floor
  | _ => none

/-- The body record emitted per body by `serializeToJson` /
`exportStateToJson` (`src/python_logic/cpp-physics` variant): all eighteen
fields. -/
def bodyToJson (b : PhysicsBody) : Json :=
  .obj [ ("id", .str b.id),
         ("position", .obj [("x", .num b.position.x), ("y", .num b.position.y)]),
         ("velocity", .obj [("x", .num b.velocity.x), ("y", .num b.velocity.y)]),
         ("force", .obj [("x", .num b.force.x), ("y", .num b.force.y)]),
         ("rotation", .num b.rotation),
         ("angularVelocity", .num b.angularVelocity),
         ("torque", .num b.torque),
         ("mass", .num b.mass),
         ("inverseMass", .num b.inverseMass),
         ("inertia", .num b.inertia),
         ("inverseInertia", .num b.inverseInertia),
         ("restitution", .num b.restitution),
         ("friction", .num b.friction),
         ("isStatic", .bool b.isStatic),
         ("isActive", .bool b.isActive),
         ("material", .num b.material.toInt),
         ("width", .num b.width),
         ("height", .num b.height) ]

/-- `PhysicsEngine::serializeToJson` (`src/python_logic/cpp-physics`): the
full structured state record — all bodies (store iteration order), gravity,
solver settings and the running/paused flags. -/
def serializeToJson (st : EngineState) : Json :=
  .obj [ ("bodies", .arr (st.bodies.map (fun p => bodyToJson p.2))),
         ("gravity", .obj [("x", .num st.gravity.x), ("y", .num st.gravity.y)]),
         ("timeStep", .num st.timeStep),
         ("velocityIterations", .num st.velocityIterations),
         ("positionIterations", .num st.positionIterations),
         ("isRunning", .bool st.isRunning),
         ("isPaused", .bool st.isPaused) ]

/-- The `{"x": …, "y": …}` reads of the deserializer (`….x` then `….y`; a
failure of either read throws, i.e. `none`). -/
def parseVec2 (j : Json) : Option Vector2 :=
  match (j.getMember "x").asNum, (j.getMember "y").asNum with
  | some x, some y => some ⟨x, y⟩
  | _, _ => none

/-- The scalar/flag field reads of a body record (`rotation` through
`height`), grouped; any failing read throws out of the loop (`none`). -/
def parseBodyScalars (j : Json) : Option (ℚ × ℚ × ℚ × ℚ × ℚ × ℚ × ℚ × ℚ × ℚ) :=
  match (j.getMember "rotation").asNum, (j.getMember "angularVelocity").asNum,
        (j.getMember "torque").asNum, (j.getMember "mass").asNum,
        (j.getMember "inverseMass").asNum, (j.getMember "inertia").asNum,
        (j.getMember "inverseInertia").asNum, (j.getMember "restitution").asNum,
        (j.getMember "friction").asNum with
  | some rot, some av, some tq, some m, some im, some inr, some iinr, some rst, some fr =>
      some (rot, av, tq, m, im, inr, iinr, rst, fr)
  | _, _, _, _, _, _, _, _, _ => none

/-- The per-body field reads of `deserializeFromJson`; any failing read
throws out of the loop (`none`), and only a fully parsed body is inserted. -/
def parseBody (j : Json) : Option PhysicsBody :=
  match (j.getMember "id").asString, parseVec2 (j.getMember "position"),
        parseVec2 (j.getMember "velocity"), parseVec2 (j.getMember "force"),
        parseBodyScalars j,
        (j.getMember "isStatic").asBool, (j.getMember "isActive").asBool,
        (j.getMember "material").asInt,
        (j.getMember "width").asNum, (j.getMember "height").asNum with
  | some id, some pos, some vel, some frc,
    some (rot, av, tq, m, im, inr, iinr, rst, fr),
    some isSt, some isAc, some mat, some w, some h =>
      some { id := id, position := pos, velocity := vel, force := frc,
             rotation := rot, angularVelocity := av, torque := tq, mass := m,
             inverseMass := im, inertia := inr, inverseInertia := iinr,
             restitution := rst, friction := fr, isStatic := isSt,
             isActive := isAc, material := materialOfInt mat,
             width := w, height := h }
  | _, _, _, _, _, _, _, _, _, _ => none

/-- `m_bodies[body.id] = …`: overwrite an existing binding or append a new
one. -/
def upsertBody (bs : List (String × PhysicsBody)) (k : String) (b : PhysicsBody) :
    List (String × PhysicsBody) :=
  if bs.any (fun p => p.1 = k) then setBody bs k b else bs ++ [(k, b)]

/-- The body loop of `deserializeFromJson`: bodies are inserted one at a time,
and an exception mid-loop leaves the bodies already inserted in the store
(`false` flags the abort). -/
def insertBodies (bs : List (String × PhysicsBody)) :
    List Json → List (String × PhysicsBody) × Bool
  | [] => (bs, true)
  | j :: rest =>
    match parseBody j with
    | some b => insertBodies (upsertBody bs b.id b) rest
    | none => (bs, false)

/-- `PhysicsEngine::deserializeFromJson` (`src/python_logic/cpp-physics`).
The input is the parsed structured record (`none` = the text failed
`json::parse`, which throws before any mutation).  Faithful to the source's
control flow: the store and the contact list are cleared *before* any field of
the record is validated, bodies are inserted incrementally, and the settings
are assigned sequentially, so a failure after the parse leaves a cleared or
partially repopulated store behind while `false` is returned. -/
def deserializeFromJson (st : EngineState) (input : Option Json) : Bool × EngineState :=
  match input with
  | none => (false, st)
  | some j =>
    let r := insertBodies [] (j.getMember "bodies").elems
    let st1 : EngineState := { st with bodies := r.1, contacts := [] }
    if r.2 then
      match ((j.getMember "gravity").getMember "x").asNum with
      | none => (false, st1)
      | some gx =>
        let st2 := { st1 with gravity := ⟨gx, st1.gravity.y⟩ }
        match ((j.getMember "gravity").getMember "y").asNum with
        | none => (false, st2)
        | some gy =>
          let st3 := { st2 with gravity := ⟨gx, gy⟩ }
          match (j.getMember "timeStep").asNum with
          | none => (false, st3)
          | some ts =>
            let st4 := { st3 with timeStep := ts }
            match (j.getMember "velocityIterations").asInt with
            | none => (false, st4)
            | some vi =>
              let st5 := { st4 with velocityIterations := vi }
              match (j.getMember "positionIterations").asInt with
              | none => (false, st5)
              | some pI =>
                let st6 := { st5 with positionIterations := pI }
                match (j.getMember "isRunning").asBool with
                | none => (false, st6)
                | some ir =>
                  let st7 := { st6 with isRunning := ir }
                  match (j.getMember "isPaused").asBool with
                  | none => (false, st7)
                  | some ip => (true, { st7 with isPaused := ip })
    else (false, st1)

/-- `PhysicsEngine::importStateFromJson` (`src/cpp_physics` variant): the
source is a stub — its own comment says the function is unimplemented — that
ignores its argument and reports failure. -/
def importStateFromJson (st : EngineState) (_json : String) : Bool × EngineState :=
  (false, st)

/-- A body as stored under key "blk" by `createBody` (identifier field equal
to the store key). -/
def blkBody : PhysicsBody := { defaultBody with id := "blk" }

/-- A concrete engine state holding one body, used as the pre-import state. -/
def preImportState : EngineState :=
  { initialState with bodies := [("blk", blkBody)] }

theorem Vector2.add_def (a b : Vector2) : a + b = ⟨a.x + b.x, a.y + b.y⟩ := rfl

theorem Vector2.sub_def (a b : Vector2) : a - b = ⟨a.x - b.x, a.y - b.y⟩ := rfl

theorem applyImpulse_position (b : PhysicsBody) (i p : Vector2) :
    (b.applyImpulse i p).position = b.position := rfl

/-- Claim C10: while the pause flag is set, `update` returns the state
unchanged — every body field, the gravity vector and the stored contacts —
and reports no contact to the collision callback, whatever `deltaTime` is. -/
theorem update_paused_noop (T : Trig) (st : EngineState) (dt : ℚ)
    (h : st.isPaused = true) : update T st dt = (st, []) := by
  simp [update, h]

theorem update_paused_noop_witness :
    update trigZero { initialState with isPaused := true } 1 =
      ({ initialState with isPaused := true }, []) :=
  update_paused_noop trigZero { initialState with isPaused := true } 1 rfl

/-- A non-static body carrying the invalid mass `0` (otherwise the default
body). -/
def zeroMassBody : PhysicsBody := { defaultBody with mass := 0, isStatic := false }

/-- Claim C9 (code bug): `createBody` performs no input validation — a
non-static body with mass `0` is stored unchanged, neither rejected nor
clamped, and `updateMassData` on the stored body computes `1/mass` with
`mass = 0` (IEEE float `+inf`; `0` under the `ℚ` division convention), so the
stored non-static body does not obtain a finite positive `inverseMass`. -/
theorem createBody_accepts_zero_mass :
    List.lookup "blk0" ((createBody initialState "blk0" zeroMassBody).1.bodies) =
      some { zeroMassBody with id := "blk0" }
    ∧ zeroMassBody.mass = 0
    ∧ zeroMassBody.isStatic = false
    ∧ ¬ 0 < (PhysicsBody.updateMassData { zeroMassBody with id := "blk0" }).inverseMass := by
  refine ⟨rfl, rfl, rfl, ?_⟩
  have h0 : (PhysicsBody.updateMassData { zeroMassBody with id := "blk0" }).inverseMass = 0 := rfl
  simp [h0]

/-- Claim C1 (code bug): `deserializeFromJson` clears the body store before
validating any field of the record, so the record `{}` — a string
`json::parse` accepts — reports failure (`false`) yet leaves the store and
contact list cleared instead of the prior state. -/
theorem deserialize_failure_clears_store :
    deserializeFromJson preImportState (some (Json.obj [])) =
      (false, { preImportState with bodies := [], contacts := [] })
    ∧ preImportState.bodies ≠ [] := by
  exact ⟨rfl, by decide⟩

/-- Claim C2 counterexample: the `src/cpp_physics` variant's
`importStateFromJson` is a stub that reports failure for every input string,
so importing an exported record does not succeed there. -/
theorem importState_rejects_export :
    importStateFromJson preImportState "exported-record" = (false, preImportState)
    ∧ preImportState.bodies.length = 1 :=
  ⟨rfl, rfl⟩

/-- Claim C6: `integrate` steps exactly the non-static active bodies; for
such a body (whose derived `inverseMass` satisfies `mass * inverseMass = 1`,
the `updateMassData` invariant) the step adds `(force*inverseMass +
gravity)*dt` to the velocity and `torque*inverseInertia*dt` to the angular
velocity, damps both by `0.98 = 49/50`, advances position by `velocity*dt`
and rotation by `angularVelocity*dt`, and resets force and torque; the
concrete instance of the claim (gravity `(0,-9.8)`, `dt = 0.1`, body at rest)
reaches velocity `y = -0.9604` and position `y = -0.09604`. -/
theorem integrate_step_spec :
    (∀ st dt, (integrate st dt).bodies = st.bodies.map (fun p =>
        if p.2.isStatic || !p.2.isActive then p
        else (p.1, integrateBody st.gravity dt p.2)))
  ∧ (∀ g dt b, b.mass * b.inverseMass = 1 →
      integrateBody g dt b =
        { b with
          velocity := (b.velocity + (b.force.smul b.inverseMass + g).smul dt).smul (49/50),
          angularVelocity := (b.angularVelocity + b.torque * b.inverseInertia * dt) * (49/50),
          position := b.position +
            ((b.velocity + (b.force.smul b.inverseMass + g).smul dt).smul (49/50)).smul dt,
          rotation := b.rotation +
            (b.angularVelocity + b.torque * b.inverseInertia * dt) * (49/50) * dt,
          force := ⟨0, 0⟩, torque := 0 })
  ∧ integrateBody ⟨0, -49/5⟩ (1/10) defaultBody =
      { defaultBody with velocity := ⟨0, -2401/2500⟩, position := ⟨0, -2401/25000⟩ } := by
  refine ⟨fun st dt => rfl, fun g dt b hb => ?_, by decide⟩
  obtain ⟨id, ⟨px, py⟩, ⟨vx, vy⟩, ⟨fx, fy⟩, rot, av, tq, m, im, inr, iinr, rst, fr,
    isSt, isAc, mat, w, h⟩ := b
  obtain ⟨gx, gy⟩ := g
  have hm : m ≠ 0 := by
    intro h
    rw [h] at hb
    simp at hb
  have him : im = m⁻¹ := by
    field_simp
    linear_combination hb
  subst him
  simp only [integrateBody, PhysicsBody.applyForce, Vector2.add_def, Vector2.smul,
    PhysicsBody.mk.injEq, Vector2.mk.injEq]
  and_intros <;> first
    | rfl
    | (field_simp; try ring)

/-- Claim C5 (amended): for a resolved contact between two non-static bodies
the positional correction displaces body A by
`-normal * (max(penetration-0.01,0) * 0.2 * (invA+invB)) * invA` and body B by
the corresponding `invB` term — shares proportional to inverse mass — so the
*combined* separation change is `max(penetration-0.01,0) * 0.2 *
(invA+invB)²`, not `max(penetration-0.01,0) * 0.2` (the source multiplies the
correction by `invA + invB` where the textbook formula divides). -/
theorem resolveContact_positional_correction (a b : PhysicsBody) (c : Contact)
    (ha : a.isStatic = false) (hb : b.isStatic = false)
    (hv : (b.getVelocityAtPoint c.point - a.getVelocityAtPoint c.point).dot c.normal ≤ 0) :
    (resolveContact a b c).1.position =
      a.position - (c.normal.smul (max (c.penetration - 1/100) 0 * (1/5) *
        (a.inverseMass + b.inverseMass))).smul a.inverseMass
  ∧ (resolveContact a b c).2.position =
      b.position + (c.normal.smul (max (c.penetration - 1/100) 0 * (1/5) *
        (a.inverseMass + b.inverseMass))).smul b.inverseMass
  ∧ ((resolveContact a b c).2.position - (resolveContact a b c).1.position) -
      (b.position - a.position) =
      c.normal.smul (max (c.penetration - 1/100) 0 * (1/5) *
        ((a.inverseMass + b.inverseMass) * (a.inverseMass + b.inverseMass))) := by
  have hnot : ¬ 0 < (b.getVelocityAtPoint c.point -
      a.getVelocityAtPoint c.point).dot c.normal := not_lt.mpr hv
  have key : (resolveContact a b c).1.position =
      a.position - (c.normal.smul (max (c.penetration - 1/100) 0 * (1/5) *
        (a.inverseMass + b.inverseMass))).smul a.inverseMass
    ∧ (resolveContact a b c).2.position =
      b.position + (c.normal.smul (max (c.penetration - 1/100) 0 * (1/5) *
        (a.inverseMass + b.inverseMass))).smul b.inverseMass := by
    simp only [resolveContact, ha, hb, Bool.and_self, Bool.false_and, if_false,
      Bool.false_eq_true, ite_false, hnot, applyImpulse_position]
    constructor
    · split <;>
        simp only [applyImpulse_position, Vector2.sub_def, Vector2.smul, Vector2.mk.injEq] <;>
        constructor <;> ring
    · split <;>
        simp only [applyImpulse_position, Vector2.add_def, Vector2.smul, Vector2.mk.injEq] <;>
        constructor <;> ring
  refine ⟨key.1, key.2, ?_⟩
  rw [key.1, key.2]
  simp only [Vector2.sub_def, Vector2.add_def, Vector2.smul, Vector2.mk.injEq]
  constructor <;> ring

/-- Two overlapping unit-mass default bodies and a contact with penetration
`0.11` along the x axis, for the positional-correction counterexample. -/
def corrBodyA : PhysicsBody := { defaultBody with id := "A" }

/-- Second body of the positional-correction counterexample. -/
def corrBodyB : PhysicsBody := { defaultBody with id := "B", position := ⟨1, 0⟩ }

/-- The contact fed to the resolver in the positional-correction
counterexample. -/
def corrContact : Contact :=
  { idA := "A", idB := "B", point := ⟨1/2, 0⟩, normal := ⟨1, 0⟩, penetration := 11/100 }

/-- Claim C5 counterexample: for two unit-mass bodies (inverse masses 1) and
penetration `0.11`, the resolver separates the pair by `0.08 = 2/25` along
the normal, whereas the claimed combined displacement
`max(penetration-0.01,0) * 0.2` is `0.02`. -/
theorem resolveContact_correction_counterexample :
    ((resolveContact corrBodyA corrBodyB corrContact).2.position.x -
        (resolveContact corrBodyA corrBodyB corrContact).1.position.x) -
      (corrBodyB.position.x - corrBodyA.position.x) = 2/25
    ∧ (2/25 : ℚ) ≠ max (corrContact.penetration - 1/100) 0 * (1/5) := by
  constructor <;> decide

theorem resolveContact_positional_correction_witness :
    (resolveContact corrBodyA corrBodyB corrContact).1.position =
      corrBodyA.position - (corrContact.normal.smul
        (max (corrContact.penetration - 1/100) 0 * (1/5) *
          (corrBodyA.inverseMass + corrBodyB.inverseMass))).smul corrBodyA.inverseMass
  ∧ (resolveContact corrBodyA corrBodyB corrContact).2.position =
      corrBodyB.position + (corrContact.normal.smul
        (max (corrContact.penetration - 1/100) 0 * (1/5) *
          (corrBodyA.inverseMass + corrBodyB.inverseMass))).smul corrBodyB.inverseMass
  ∧ ((resolveContact corrBodyA corrBodyB corrContact).2.position -
        (resolveContact corrBodyA corrBodyB corrContact).1.position) -
      (corrBodyB.position - corrBodyA.position) =
      corrContact.normal.smul (max (corrContact.penetration - 1/100) 0 * (1/5) *
        ((corrBodyA.inverseMass + corrBodyB.inverseMass) *
          (corrBodyA.inverseMass + corrBodyB.inverseMass))) :=
  resolveContact_positional_correction corrBodyA corrBodyB corrContact rfl rfl (by decide)

/-- Association-list lookup commutes with a value-only map (the per-body
update loops of the engine keep every key in place). -/
theorem lookup_map_body (bs : List (String × PhysicsBody)) (k : String)
    (f : PhysicsBody → PhysicsBody) :
    List.lookup k (bs.map (fun p => (p.1, f p.2))) = (List.lookup k bs).map f := by
  induction bs with
  | nil => rfl
  | cons hd tl ih =>
    by_cases h : k == hd.1 <;> simp [List.lookup, h, ih]

/-- Claim C8 (amended): `applyExplosion` updates every stored body — with no
`isActive` filter — by `explodedBody`; a body strictly beyond `radius` is
untouched, a body within `radius` receives one accumulated force along the
normalised displacement with magnitude `force * (1 - distance/radius)`
(squared-magnitude form), zero at distance exactly `radius`, and the
zero-distance case is guarded to the zero vector (no NaN).  The hypothesis
`hexact` states that the distance is exactly representable (the `ℚ`
embedding of `sqrt`). -/
theorem applyExplosion_spec (st : EngineState) (center : Vector2) (radius force : ℚ)
    (k : String) (b : PhysicsBody)
    (hlook : List.lookup k st.bodies = some b)
    (hr : 0 < radius) (hf : 0 ≤ force)
    (hexact : (b.position - center).length * (b.position - center).length
      = (b.position - center).lengthSq) :
    List.lookup k (applyExplosion st center radius force).bodies =
      some (explodedBody center radius force b)
  ∧ (radius < (b.position - center).length → explodedBody center radius force b = b)
  ∧ ((b.position - center).length ≤ radius →
      explodedBody center radius force b =
        b.applyForce ((b.position - center).normalized.smul
          (force * (1 - (b.position - center).length / radius))))
  ∧ ((b.position - center).length = radius →
      (b.position - center).normalized.smul
        (force * (1 - (b.position - center).length / radius)) = ⟨0, 0⟩)
  ∧ ((b.position - center).length = 0 →
      (b.position - center).normalized.smul
        (force * (1 - (b.position - center).length / radius)) = ⟨0, 0⟩)
  ∧ (0 < (b.position - center).length → (b.position - center).length ≤ radius →
      ((b.position - center).normalized.smul
          (force * (1 - (b.position - center).length / radius))).lengthSq
        = (force * (1 - (b.position - center).length / radius)) ^ 2
      ∧ 0 ≤ ((b.position - center).normalized.smul
          (force * (1 - (b.position - center).length / radius))).dot (b.position - center)) := by
  have hstore : List.lookup k (applyExplosion st center radius force).bodies =
      some (explodedBody center radius force b) := by
    show List.lookup k (st.bodies.map fun p => (p.1, explodedBody center radius force p.2)) = _
    rw [lookup_map_body, hlook]
    rfl
  refine ⟨hstore, ?_, ?_, ?_, ?_, ?_⟩
  · intro h
    rw [explodedBody, if_neg (not_le.mpr h)]
  · intro h
    rw [explodedBody, if_pos h]
  · intro h
    rw [h, div_self (ne_of_gt hr)]
    simp [Vector2.smul]
  · intro h
    rcases hD : b.position - center with ⟨dx, dy⟩
    rw [hD] at hexact h
    have hsq : dx * dx + dy * dy = 0 := by
      have h2 := hexact
      rw [h, mul_zero, Vector2.lengthSq] at h2
      exact h2.symm
    have hx : dx = 0 := by nlinarith [mul_self_nonneg dx, mul_self_nonneg dy]
    have hy : dy = 0 := by nlinarith [mul_self_nonneg dx, mul_self_nonneg dy]
    subst hx
    subst hy
    have hlen0 : (Vector2.mk 0 0).length = 0 := by decide
    rw [Vector2.normalized, hlen0]
    simp [Vector2.smul]
  · intro hpos hle
    have hs : 0 ≤ force * (1 - (b.position - center).length / radius) := by
      apply mul_nonneg hf
      rw [sub_nonneg, div_le_one hr]
      exact hle
    rcases hD : b.position - center with ⟨dx, dy⟩
    rw [hD] at hexact hpos hle hs
    have hL : (Vector2.mk dx dy).length ≠ 0 := ne_of_gt hpos
    have hlen : (Vector2.mk dx dy).length * (Vector2.mk dx dy).length = dx * dx + dy * dy := by
      rw [Vector2.lengthSq] at hexact
      exact hexact
    rw [Vector2.normalized, if_pos hpos]
    set L := (Vector2.mk dx dy).length with hLdef
    set s := force * (1 - L / radius) with hsdef
    constructor
    · simp only [Vector2.smul, Vector2.lengthSq]
      have e1 : dx / L * s * (dx / L * s) + dy / L * s * (dy / L * s)
          = s ^ 2 * ((dx * dx + dy * dy) / (L * L)) := by ring
      rw [e1, ← hlen, div_self (mul_ne_zero hL hL), mul_one]
    · simp only [Vector2.smul, Vector2.dot]
      have e2 : dx / L * s * dx + dy / L * s * dy = s * ((dx * dx + dy * dy) / L) := by ring
      rw [e2, ← hlen]
      have e3 : L * L / L = L := by field_simp
      rw [e3]
      exact mul_nonneg hs (le_of_lt hpos)

/-- A body at distance 5 from the origin (displacement `(3,4)`, a perfect
rational square) for the explosion witness. -/
def explBody : PhysicsBody := { defaultBody with id := "E", position := ⟨3, 4⟩ }

/-- Engine state holding only `explBody`. -/
def explState : EngineState := { initialState with bodies := [("E", explBody)] }

theorem applyExplosion_spec_witness :
    List.lookup "E" (applyExplosion explState ⟨0, 0⟩ 10 50).bodies =
      some (explodedBody ⟨0, 0⟩ 10 50 explBody) :=
  (applyExplosion_spec explState ⟨0, 0⟩ 10 50 "E" explBody (by decide) (by decide)
    (by decide) (by decide)).1

/-- An inactive body within explosion range. -/
def inactiveBody : PhysicsBody :=
  { defaultBody with id := "N", position := ⟨1, 0⟩, isActive := false }

/-- Engine state holding only the inactive body. -/
def inactiveState : EngineState := { initialState with bodies := [("N", inactiveBody)] }

/-- Claim C8 counterexample: `applyExplosion` has no `isActive` filter — an
*inactive* body at distance 1 of the center (radius 10, force 50) receives
the accumulated force `(45, 0)`, although the claim says only active bodies
receive a force. -/
theorem applyExplosion_hits_inactive :
    inactiveBody.isActive = false
  ∧ List.lookup "N" (applyExplosion inactiveState ⟨0, 0⟩ 10 50).bodies =
      some { inactiveBody with force := ⟨45, 0⟩ }
  ∧ (⟨45, 0⟩ : Vector2) ≠ inactiveBody.force :=
  ⟨rfl, by decide, by decide⟩

/-- `lookupBlocks` fails exactly when some listed identifier is absent from
the store. -/
theorem lookupBlocks_eq_none (st : EngineState) (ids : List String) :
    lookupBlocks st ids = none ↔ ∃ i ∈ ids, List.lookup i st.bodies = none := by
  induction ids with
  | nil =>
    constructor
    · intro h
      exact Option.noConfusion h
    · intro ⟨i, hi, _⟩
      exact absurd hi (List.not_mem_nil i)
  | cons hd tl ih =>
    rw [lookupBlocks]
    cases hlk : List.lookup hd st.bodies with
    | none =>
      constructor
      · intro _
        exact ⟨hd, List.mem_cons_self hd tl, hlk⟩
      · intro _
        rfl
    | some b =>
      constructor
      · intro h
        obtain ⟨i, hi, hn⟩ := ih.mp (Option.map_eq_none'.mp h)
        exact ⟨i, List.mem_cons_of_mem hd hi, hn⟩
      · intro ⟨i, hi, hn⟩
        rcases List.mem_cons.mp hi with rfl | hi'
        · rw [hlk] at hn
          exact Option.noConfusion hn
        · exact Option.map_eq_none'.mpr (ih.mpr ⟨i, hi', hn⟩)

/-- The lowest-block fold returns an element of the list attaining the
minimal `position.y`. -/
theorem lowest_fold_spec (rest : List PhysicsBody) : ∀ b : PhysicsBody,
    ((rest.foldl (fun acc x => if x.position.y < acc.position.y then x else acc) b) = b ∨
      (rest.foldl (fun acc x => if x.position.y < acc.position.y then x else acc) b) ∈ rest)
  ∧ (rest.foldl (fun acc x => if x.position.y < acc.position.y then x else acc) b).position.y
      ≤ b.position.y
  ∧ ∀ x ∈ rest,
      (rest.foldl (fun acc x => if x.position.y < acc.position.y then x else acc) b).position.y
        ≤ x.position.y := by
  induction rest with
  | nil =>
    intro b
    exact ⟨Or.inl rfl, le_refl _, by simp⟩
  | cons hd tl ih =>
    intro b
    simp only [List.foldl_cons]
    by_cases h : hd.position.y < b.position.y
    · rw [if_pos h]
      obtain ⟨hmem, hle, hall⟩ := ih hd
      refine ⟨?_, le_trans hle (le_of_lt h), ?_⟩
      · rcases hmem with h1 | h1
        · refine Or.inr ?_
          rw [h1]
          exact List.mem_cons_self hd tl
        · exact Or.inr (List.mem_cons_of_mem _ h1)
      · intro x hx
        rcases List.mem_cons.mp hx with rfl | hx'
        · exact hle
        · exact hall x hx'
    · rw [if_neg h]
      obtain ⟨hmem, hle, hall⟩ := ih b
      refine ⟨?_, hle, ?_⟩
      · rcases hmem with h1 | h1
        · exact Or.inl h1
        · exact Or.inr (List.mem_cons_of_mem _ h1)
      · intro x hx
        rcases List.mem_cons.mp hx with rfl | hx'
        · exact le_trans hle (not_lt.mp h)
        · exact hall x hx'

/-- Claim C3: `checkTowerStability` returns true on the empty list; false if
a listed identifier is absent; false if a listed body moves faster than the
`0.1` linear threshold (squared form `1/100`) or `0.1` angular threshold;
the scanned lowest block attains the minimal `position.y` among the listed
blocks; and otherwise the result is true iff the x-coordinate of the
mass-weighted center of mass lies within `position.x ± width/2` of that
lowest block. -/
theorem checkTowerStability_spec (st : EngineState) :
    (checkTowerStability st [] = true)
  ∧ (∀ ids, (∃ i ∈ ids, List.lookup i st.bodies = none) →
      checkTowerStability st ids = false)
  ∧ (∀ ids blocks, lookupBlocks st ids = some blocks →
      (∃ b ∈ blocks, (1/100 : ℚ) < b.velocity.lengthSq ∨ (1/10 : ℚ) < |b.angularVelocity|) →
      checkTowerStability st ids = false)
  ∧ (∀ blocks lowest, lowestBlock blocks = some lowest →
      lowest ∈ blocks ∧ ∀ b ∈ blocks, lowest.position.y ≤ b.position.y)
  ∧ (∀ ids blocks lowest, ids ≠ [] → lookupBlocks st ids = some blocks →
      (∀ b ∈ blocks, b.velocity.lengthSq ≤ 1/100 ∧ |b.angularVelocity| ≤ 1/10) →
      lowestBlock blocks = some lowest →
      0 < massSum blocks →
      (checkTowerStability st ids = true ↔
        lowest.position.x - lowest.width / 2 ≤ (weightedPos blocks).x / massSum blocks ∧
        (weightedPos blocks).x / massSum blocks ≤ lowest.position.x + lowest.width / 2)) := by
  refine ⟨rfl, ?_, ?_, ?_, ?_⟩
  · intro ids hex
    rcases ids with _ | ⟨hd, tl⟩
    · obtain ⟨i, hi, _⟩ := hex
      exact absurd hi (List.not_mem_nil i)
    · have hnone : lookupBlocks st (hd :: tl) = none := (lookupBlocks_eq_none st _).mpr hex
      simp [checkTowerStability, hnone]
  · intro ids blocks hlkb hex
    rcases ids with _ | ⟨hd, tl⟩
    · rw [lookupBlocks] at hlkb
      obtain ⟨b, hb, _⟩ := hex
      obtain rfl : ([] : List PhysicsBody) = blocks := Option.some.inj hlkb
      exact absurd hb (List.not_mem_nil b)
    · have hany : blocks.any exceedsThreshold = true := by
        rw [List.any_eq_true]
        obtain ⟨b, hb, hbe⟩ := hex
        refine ⟨b, hb, ?_⟩
        simp only [exceedsThreshold, Bool.or_eq_true, decide_eq_true_eq]
        exact hbe
      simp [checkTowerStability, hlkb, hany]
  · intro blocks lowest hlow
    rcases blocks with _ | ⟨b0, rest⟩
    · cases hlow
    · rw [lowestBlock] at hlow
      obtain rfl := Option.some.inj hlow
      obtain ⟨hmem, hle, hall⟩ := lowest_fold_spec rest b0
      constructor
      · rcases hmem with h1 | h1
        · rw [h1]
          exact List.mem_cons_self b0 rest
        · exact List.mem_cons_of_mem _ h1
      · intro b hb
        rcases List.mem_cons.mp hb with rfl | hb'
        · exact hle
        · exact hall b hb'
  · intro ids blocks lowest hne hlkb hall hlow htot
    have hany : blocks.any exceedsThreshold = false := by
      rw [List.any_eq_false]
      intro b hb
      obtain ⟨h1, h2⟩ := hall b hb
      simp only [exceedsThreshold, Bool.or_eq_true, decide_eq_true_eq, not_or, not_lt]
      exact ⟨h1, h2⟩
    rcases ids with _ | ⟨hd, tl⟩
    · exact absurd rfl hne
    · rw [checkTowerStability]
      simp only [List.isEmpty_cons, hlkb, hany, hlow, Bool.false_eq_true, if_false,
        if_pos htot, Vector2.smul, decide_eq_true_eq, mul_one_div]

/-- Lower block of the concrete two-block stack. -/
def towerA : PhysicsBody := { defaultBody with id := "a" }

/-- Upper block of the concrete two-block stack. -/
def towerB : PhysicsBody := { defaultBody with id := "b", position := ⟨0, 1⟩ }

/-- The engine state holding the concrete two-block stack. -/
def towerState : EngineState :=
  { initialState with bodies := [("a", towerA), ("b", towerB)] }

theorem checkTowerStability_spec_witness :
    checkTowerStability towerState ["a", "b"] = true ↔
      towerA.position.x - towerA.width / 2 ≤
        (weightedPos [towerA, towerB]).x / massSum [towerA, towerB] ∧
      (weightedPos [towerA, towerB]).x / massSum [towerA, towerB] ≤
        towerA.position.x + towerA.width / 2 :=
  (checkTowerStability_spec towerState).2.2.2.2 ["a", "b"] [towerA, towerB] towerA
    (by decide) (by decide) (by decide) (by decide) (by decide)

theorem integrate_step_spec_witness :
    integrateBody ⟨0, -49/5⟩ (1/10) blkBody =
      { blkBody with
        velocity := (blkBody.velocity +
          (blkBody.force.smul blkBody.inverseMass + ⟨0, -49/5⟩).smul (1/10)).smul (49/50),
        angularVelocity := (blkBody.angularVelocity +
          blkBody.torque * blkBody.inverseInertia * (1/10)) * (49/50),
        position := blkBody.position + ((blkBody.velocity +
          (blkBody.force.smul blkBody.inverseMass + ⟨0, -49/5⟩).smul (1/10)).smul (49/50)).smul (1/10),
        rotation := blkBody.rotation + (blkBody.angularVelocity +
          blkBody.torque * blkBody.inverseInertia * (1/10)) * (49/50) * (1/10),
        force := ⟨0, 0⟩, torque := 0 } :=
  integrate_step_spec.2.1 ⟨0, -49/5⟩ (1/10) blkBody (by decide)

/-- Unit square centered at the origin (rotation 0). -/
def sqA : PhysicsBody := { defaultBody with id := "sqA" }

/-- Unit square centered at `(10, 0)`. -/
def sqFar : PhysicsBody := { defaultBody with id := "sqFar", position := ⟨10, 0⟩ }

/-- Unit square centered at `(0.5, 0)`. -/
def sqB : PhysicsBody := { defaultBody with id := "sqB", position := ⟨1/2, 0⟩ }

set_option maxRecDepth 4000 in
/-- Claim C7: on axis-aligned unit squares the separating-axis narrow phase
returns no contact for centers `(0,0)`/`(10,0)`; for centers `(0,0)`/`(0.5,0)`
it returns exactly one contact with unit normal `(1,0)` pointing from the
first body toward the second (`dot(centerB - centerA, normal) ≥ 0`),
penetration `0.5`, and contact point `(0.25, 0)`, the midpoint between the
two centers. -/
theorem narrow_phase_unit_squares :
    checkOBBCollision trigZero sqA sqFar = none
  ∧ checkOBBCollision trigZero sqA sqB =
      some { idA := "sqA", idB := "sqB", point := ⟨1/4, 0⟩, normal := ⟨1, 0⟩,
             penetration := 1/2 }
  ∧ 0 ≤ (sqB.position - sqA.position).dot ⟨1, 0⟩
  ∧ sqA.position + (sqB.position - sqA.position).smul (1/2) = ⟨1/4, 0⟩ := by
  refine ⟨by decide, by decide, by decide, by decide⟩

/-- The structural square-root search is exact on perfect squares. -/
theorem natSqrtBelow_mul_self (n : Nat) : ∀ bound, n ≤ bound → natSqrtBelow bound (n * n) = n := by
  intro bound
  induction bound with
  | zero =>
    intro h
    obtain rfl : n = 0 := Nat.le_zero.mp h
    rfl
  | succ k ih =>
    intro h
    rw [natSqrtBelow]
    by_cases hk : (k + 1) * (k + 1) ≤ n * n
    · rw [if_pos hk]
      rcases Nat.lt_or_ge k n with h1 | h1
      · omega
      · exfalso
        have h2 : n * n ≤ k * k := Nat.mul_le_mul h1 h1
        nlinarith
    · rw [if_neg hk]
      apply ih
      rcases Nat.lt_or_ge k n with h1 | h1
      · exact absurd (Nat.mul_le_mul h1 h1) hk
      · exact h1

/-- Every natural is at most its own square. -/
theorem le_mul_self (n : Nat) : n ≤ n * n := by
  cases n with
  | zero => exact Nat.le_refl 0
  | succ k => exact Nat.le_mul_of_pos_left _ (Nat.succ_pos k)

/-- `ratSqrt` is exact on rational squares: the embedding of `std::sqrt`
agrees with the real square root there. -/
theorem ratSqrt_mul_self (q : ℚ) : ratSqrt (q * q) = |q| := by
  rw [ratSqrt, Rat.mul_self_num, Rat.mul_self_den]
  have hn : (q.num * q.num).toNat = q.num.natAbs * q.num.natAbs := by
    have hge : (0 : Int) ≤ q.num * q.num := mul_self_nonneg q.num
    rw [← Int.natAbs_mul]
    omega
  rw [hn, natSqrtBelow_mul_self _ _ (le_mul_self _), natSqrtBelow_mul_self _ _ (le_mul_self _)]
  conv_rhs => rw [← Rat.num_div_den q]
  rw [abs_div, Int.cast_natAbs]
  have hd : |(q.den : ℚ)| = (q.den : ℚ) :=
    abs_of_pos (by exact_mod_cast q.pos)
  rw [hd, Int.cast_abs]

/-- `normalized (0, w) = (0, 1)` for positive `w`. -/
theorem normalized_up (w : ℚ) (hw : 0 < w) : (Vector2.mk 0 w).normalized = ⟨0, 1⟩ := by
  have hl : (Vector2.mk 0 w).length = w := by
    rw [Vector2.length, Vector2.lengthSq]
    have h0 : (Vector2.mk 0 w).x * (Vector2.mk 0 w).x + (Vector2.mk 0 w).y * (Vector2.mk 0 w).y
        = w * w := by
      simp
    rw [h0, ratSqrt_mul_self, abs_of_pos hw]
  rw [Vector2.normalized, hl, if_pos hw]
  rw [Vector2.mk.injEq]
  exact ⟨zero_div w, div_self (ne_of_gt hw)⟩

/-- `normalized (-w, 0) = (-1, 0)` for positive `w`. -/
theorem normalized_left (w : ℚ) (hw : 0 < w) : (Vector2.mk (-w) 0).normalized = ⟨-1, 0⟩ := by
  have hl : (Vector2.mk (-w) 0).length = w := by
    rw [Vector2.length, Vector2.lengthSq]
    have h0 : (Vector2.mk (-w) 0).x * (Vector2.mk (-w) 0).x +
        (Vector2.mk (-w) 0).y * (Vector2.mk (-w) 0).y = w * w := by
      simp [neg_mul_neg]
    rw [h0, ratSqrt_mul_self, abs_of_pos hw]
  rw [Vector2.normalized, hl, if_pos hw]
  rw [Vector2.mk.injEq]
  exact ⟨by rw [neg_div, div_self (ne_of_gt hw)], zero_div w⟩

/-- `normalized (0, -w) = (0, -1)` for positive `w`. -/
theorem normalized_down (w : ℚ) (hw : 0 < w) : (Vector2.mk 0 (-w)).normalized = ⟨0, -1⟩ := by
  have hl : (Vector2.mk 0 (-w)).length = w := by
    rw [Vector2.length, Vector2.lengthSq]
    have h0 : (Vector2.mk 0 (-w)).x * (Vector2.mk 0 (-w)).x +
        (Vector2.mk 0 (-w)).y * (Vector2.mk 0 (-w)).y = w * w := by
      simp [neg_mul_neg]
    rw [h0, ratSqrt_mul_self, abs_of_pos hw]
  rw [Vector2.normalized, hl, if_pos hw]
  rw [Vector2.mk.injEq]
  exact ⟨zero_div w, by rw [neg_div, div_self (ne_of_gt hw)]⟩

/-- `normalized (w, 0) = (1, 0)` for positive `w`. -/
theorem normalized_right (w : ℚ) (hw : 0 < w) : (Vector2.mk w 0).normalized = ⟨1, 0⟩ := by
  have hl : (Vector2.mk w 0).length = w := by
    rw [Vector2.length, Vector2.lengthSq]
    have h0 : (Vector2.mk w 0).x * (Vector2.mk w 0).x +
        (Vector2.mk w 0).y * (Vector2.mk w 0).y = w * w := by
      simp
    rw [h0, ratSqrt_mul_self, abs_of_pos hw]
  rw [Vector2.normalized, hl, if_pos hw]
  rw [Vector2.mk.injEq]
  exact ⟨div_self (ne_of_gt hw), zero_div w⟩

/-- For an unrotated body (`cos = 1`, `sin = 0`) the oriented vertices are
the axis-aligned corners `position ± half-extents`. -/
theorem getVertices_axis_aligned (T : Trig) (b : PhysicsBody)
    (hc : T.cos b.rotation = 1) (hs : T.sin b.rotation = 0) :
    getVertices T b =
      [ ⟨b.position.x - b.width/2, b.position.y - b.height/2⟩,
        ⟨b.position.x + b.width/2, b.position.y - b.height/2⟩,
        ⟨b.position.x + b.width/2, b.position.y + b.height/2⟩,
        ⟨b.position.x - b.width/2, b.position.y + b.height/2⟩ ] := by
  simp only [getVertices, hc, hs, List.cons.injEq, Vector2.mk.injEq, and_true]
  and_intros <;> ring

/-- The candidate axes of an axis-aligned rectangle with positive extents are
the four unit axis directions, in the winding order of the source. -/
theorem edgeNormals_axis_aligned (px py w h : ℚ) (hw : 0 < w) (hh : 0 < h) :
    edgeNormals
      [ ⟨px - w/2, py - h/2⟩, ⟨px + w/2, py - h/2⟩,
        ⟨px + w/2, py + h/2⟩, ⟨px - w/2, py + h/2⟩ ] =
      [ ⟨0, 1⟩, ⟨-1, 0⟩, ⟨0, -1⟩, ⟨1, 0⟩ ] := by
  have s1 : ((⟨px + w/2, py - h/2⟩ : Vector2) - ⟨px - w/2, py - h/2⟩) = ⟨w, 0⟩ := by
    rw [Vector2.sub_def, Vector2.mk.injEq]
    constructor <;> ring
  have s2 : ((⟨px + w/2, py + h/2⟩ : Vector2) - ⟨px + w/2, py - h/2⟩) = ⟨0, h⟩ := by
    rw [Vector2.sub_def, Vector2.mk.injEq]
    constructor <;> ring
  have s3 : ((⟨px - w/2, py + h/2⟩ : Vector2) - ⟨px + w/2, py + h/2⟩) = ⟨-w, 0⟩ := by
    rw [Vector2.sub_def, Vector2.mk.injEq]
    constructor <;> ring
  have s4 : ((⟨px - w/2, py - h/2⟩ : Vector2) - ⟨px - w/2, py + h/2⟩) = ⟨0, -h⟩ := by
    rw [Vector2.sub_def, Vector2.mk.injEq]
    constructor <;> ring
  rw [edgeNormals, s1, s2, s3, s4]
  simp only [neg_zero, neg_neg]
  rw [normalized_up w hw, normalized_left h hh, normalized_down w hw, normalized_right h hh]

/-- If the axis loop of `checkOBBCollision` did not abort, no candidate axis
was separating. -/
theorem runAxes_some_axis (vsA vsB : List Vector2) :
    ∀ (axes : List Vector2) (best : ℚ × Vector2), runAxes vsA vsB axes best ≠ none →
      ∀ ax ∈ axes, checkSeparatingAxis vsA vsB ax ≠ none := by
  intro axes
  induction axes with
  | nil =>
    intro best _ ax hax
    exact absurd hax (List.not_mem_nil ax)
  | cons hd tl ih =>
    intro best h ax hax
    rw [runAxes] at h
    cases hsep : checkSeparatingAxis vsA vsB hd with
    | none =>
      rw [hsep] at h
      exact absurd rfl h
    | some ov =>
      rw [hsep] at h
      rcases List.mem_cons.mp hax with rfl | hax'
      · rw [hsep]
        exact fun hc => Option.noConfusion hc
      · exact ih _ h ax hax'

/-- A non-separating axis has a non-negative projection overlap. -/
theorem sep_overlap_nonneg (vsA vsB : List Vector2) (axis : Vector2)
    (h : checkSeparatingAxis vsA vsB axis ≠ none) :
    max (listMin (vsA.map (fun v => v.dot axis))) (listMin (vsB.map (fun v => v.dot axis)))
      ≤ min (listMax (vsA.map (fun v => v.dot axis)))
          (listMax (vsB.map (fun v => v.dot axis))) := by
  simp only [checkSeparatingAxis] at h
  split_ifs at h with hov hinner
  · exact absurd rfl h
  · linarith [not_lt.mp hov]
  · linarith [not_lt.mp hov]

/-- Fold evaluation of `listMin` on the x-projection pattern. -/
theorem listMin_pqqp (p q : ℚ) (h : p ≤ q) : listMin [p, q, q, p] = p := by
  simp only [listMin, List.foldl]
  rw [min_eq_left h, min_eq_left h, min_self]

/-- Fold evaluation of `listMax` on the x-projection pattern. -/
theorem listMax_pqqp (p q : ℚ) (h : p ≤ q) : listMax [p, q, q, p] = q := by
  simp only [listMax, List.foldl]
  rw [max_eq_right h, max_self, max_eq_left h]

/-- Fold evaluation of `listMin` on the y-projection pattern. -/
theorem listMin_ppqq (p q : ℚ) (h : p ≤ q) : listMin [p, p, q, q] = p := by
  simp only [listMin, List.foldl]
  rw [min_self, min_eq_left h, min_eq_left h]

/-- Fold evaluation of `listMax` on the y-projection pattern. -/
theorem listMax_ppqq (p q : ℚ) (h : p ≤ q) : listMax [p, p, q, q] = q := by
  simp only [listMax, List.foldl]
  rw [max_self, max_eq_right h, max_self]

/-- Projections of the axis-aligned corner list onto `(1,0)`. -/
theorem rect_proj_x (px py w h : ℚ) :
    (([ ⟨px - w/2, py - h/2⟩, ⟨px + w/2, py - h/2⟩,
        ⟨px + w/2, py + h/2⟩, ⟨px - w/2, py + h/2⟩ ] : List Vector2).map
      (fun v => v.dot ⟨1, 0⟩)) = [px - w/2, px + w/2, px + w/2, px - w/2] := by
  simp [Vector2.dot]

/-- Projections of the axis-aligned corner list onto `(0,1)`. -/
theorem rect_proj_y (px py w h : ℚ) :
    (([ ⟨px - w/2, py - h/2⟩, ⟨px + w/2, py - h/2⟩,
        ⟨px + w/2, py + h/2⟩, ⟨px - w/2, py + h/2⟩ ] : List Vector2).map
      (fun v => v.dot ⟨0, 1⟩)) = [py - h/2, py - h/2, py + h/2, py + h/2] := by
  simp [Vector2.dot]

/-- A reported narrow-phase contact means the axis loop completed. -/
theorem checkOBB_ne_none_runAxes (T : Trig) (a b : PhysicsBody)
    (h : checkOBBCollision T a b ≠ none) :
    runAxes (getVertices T a) (getVertices T b)
      (edgeNormals (getVertices T a) ++ edgeNormals (getVertices T b))
      (fltMax, ⟨0, 0⟩) ≠ none := by
  intro hc
  apply h
  simp only [checkOBBCollision]
  rw [hc]
  rfl

/-- Claim C4 (amended, positive part): for unrotated bodies with positive
extents the AABB broad phase is conservative — a narrow-phase contact implies
the AABB test accepts the pair (so `checkCollision` agrees with the narrow
phase there). -/
theorem broad_phase_conservative_axis_aligned (T : Trig) (a b : PhysicsBody)
    (hca : T.cos a.rotation = 1) (hsa : T.sin a.rotation = 0)
    (hcb : T.cos b.rotation = 1) (hsb : T.sin b.rotation = 0)
    (hwa : 0 < a.width) (hha : 0 < a.height) (hwb : 0 < b.width) (hhb : 0 < b.height) :
    checkOBBCollision T a b ≠ none → checkAABBCollision a b = true := by
  intro hobb
  have hrun := checkOBB_ne_none_runAxes T a b hobb
  rw [getVertices_axis_aligned T a hca hsa, getVertices_axis_aligned T b hcb hsb,
    edgeNormals_axis_aligned _ _ _ _ hwa hha, edgeNormals_axis_aligned _ _ _ _ hwb hhb] at hrun
  have hmem := runAxes_some_axis _ _ _ _ hrun
  have hxs := sep_overlap_nonneg _ _ _ (hmem ⟨1, 0⟩ (by simp))
  have hys := sep_overlap_nonneg _ _ _ (hmem ⟨0, 1⟩ (by simp))
  rw [rect_proj_x, rect_proj_x, listMin_pqqp _ _ (by linarith), listMin_pqqp _ _ (by linarith),
    listMax_pqqp _ _ (by linarith), listMax_pqqp _ _ (by linarith)] at hxs
  rw [rect_proj_y, rect_proj_y, listMin_ppqq _ _ (by linarith), listMin_ppqq _ _ (by linarith),
    listMax_ppqq _ _ (by linarith), listMax_ppqq _ _ (by linarith)] at hys
  rw [checkAABBCollision]
  simp only [decide_eq_true_eq]
  refine ⟨?_, ?_, ?_, ?_⟩
  · exact le_trans (le_max_right _ _) (le_trans hxs (min_le_left _ _))
  · exact le_trans (le_max_left _ _) (le_trans hxs (min_le_right _ _))
  · exact le_trans (le_max_right _ _) (le_trans hys (min_le_left _ _))
  · exact le_trans (le_max_left _ _) (le_trans hys (min_le_right _ _))

theorem broad_phase_conservative_axis_aligned_witness :
    checkAABBCollision sqA sqB = true :=
  broad_phase_conservative_axis_aligned trigZero sqA sqB rfl rfl rfl rfl
    (by decide) (by decide) (by decide) (by decide) (by decide)

/-- Trig oracle for the broad-phase counterexample: the marker angle
`157/100` stored by the rotated body stands for π/2 (`cos = 0`, `sin = 1`),
angle `0` is unrotated (`cos = 1`, `sin = 0`); both value pairs satisfy
`cos² + sin² = 1`. -/
def trigQuarter : Trig :=
  { cos := fun r => if r = 0 then 1 else 0, sin := fun r => if r = 0 then 0 else 1 }

/-- A 4×2 rectangle at the origin rotated by (the marker for) π/2: its true
footprint is `x ∈ [-1,1], y ∈ [-2,2]`, while its rotation-ignoring AABB is
`x ∈ [-2,2], y ∈ [-1,1]`. -/
def tallBody : PhysicsBody :=
  { defaultBody with id := "T", rotation := 157/100, width := 4, height := 2 }

/-- An unrotated 2×2 square at `(0, 2.5)`: it truly overlaps the rotated
`tallBody` but not `tallBody`'s rotation-ignoring AABB. -/
def sideBody : PhysicsBody :=
  { defaultBody with id := "S", position := ⟨0, 5/2⟩, width := 2, height := 2 }

set_option maxRecDepth 8000 in
set_option maxHeartbeats 1000000 in
/-- Claim C4 counterexample: the pair `tallBody`/`sideBody` truly overlaps —
the separating-axis narrow phase reports a contact — yet the rotation-ignoring
AABB test rejects it, so `checkCollision` returns no collision; the broad
phase is therefore not a conservative over-approximation for rotated
bodies. -/
theorem broad_phase_rejects_overlap :
    checkOBBCollision trigQuarter tallBody sideBody ≠ none
  ∧ checkAABBCollision tallBody sideBody = false
  ∧ checkCollision trigQuarter tallBody sideBody = none
  ∧ (trigQuarter.cos tallBody.rotation) ^ 2 + (trigQuarter.sin tallBody.rotation) ^ 2 = 1
  ∧ (trigQuarter.cos sideBody.rotation) ^ 2 + (trigQuarter.sin sideBody.rotation) ^ 2 = 1 := by
  refine ⟨by decide, by decide, by decide, by decide, by decide⟩

/-- Parsing the serialized record of a body recovers the body exactly (every
field is emitted, and re-read at the type it was written at). -/
theorem parseBody_bodyToJson (b : PhysicsBody) : parseBody (bodyToJson b) = some b := by
  obtain ⟨id, pos, vel, frc, rot, av, tq, m, im, inr, iinr, rst, fr, isSt, isAc, mat, w, h⟩ := b
  cases mat <;> rfl

/-- The body loop of the deserializer, fed the serialized bodies of a store
with matching and duplicate-free identifiers, rebuilds exactly that store,
appended after whatever was already inserted. -/
theorem insertBodies_roundtrip :
    ∀ (bodies pre : List (String × PhysicsBody)),
    (∀ p ∈ bodies, (p.2).id = p.1) →
    (∀ p ∈ bodies, ∀ q ∈ pre, p.1 ≠ q.1) →
    (bodies.map Prod.fst).Nodup →
    insertBodies pre (bodies.map (fun p => bodyToJson p.2)) = (pre ++ bodies, true) := by
  intro bodies
  induction bodies with
  | nil =>
    intro pre _ _ _
    simp [insertBodies]
  | cons hd tl ih =>
    obtain ⟨k, b⟩ := hd
    intro pre hid hfresh hnodup
    have hbid : b.id = k := hid (k, b) (List.mem_cons_self _ _)
    have hanyf : (pre.any fun p => decide (p.1 = k)) = false := by
      rw [List.any_eq_false]
      intro q hq
      simp only [decide_eq_true_eq]
      exact fun hqk => hfresh (k, b) (List.mem_cons_self _ _) q hq hqk.symm
    have hup : upsertBody pre b.id b = pre ++ [(k, b)] := by
      rw [hbid]
      simp [upsertBody, hanyf]
    have hid2 : ∀ p ∈ tl, (p.2).id = p.1 := fun p hp => hid p (List.mem_cons_of_mem _ hp)
    have hnodup2 : (tl.map Prod.fst).Nodup := by
      rw [List.map_cons] at hnodup
      exact (List.nodup_cons.mp hnodup).2
    have hknotin : k ∉ tl.map Prod.fst := by
      rw [List.map_cons] at hnodup
      exact (List.nodup_cons.mp hnodup).1
    have hfresh2 : ∀ p ∈ tl, ∀ q ∈ pre ++ [(k, b)], p.1 ≠ q.1 := by
      intro p hp q hq
      rcases List.mem_append.mp hq with hq1 | hq2
      · exact hfresh p (List.mem_cons_of_mem _ hp) q hq1
      · obtain rfl : q = (k, b) := List.mem_singleton.mp hq2
        intro hpk
        have hmem : p.1 ∈ tl.map Prod.fst := List.mem_map_of_mem Prod.fst hp
        rw [hpk] at hmem
        exact hknotin hmem
    rw [List.map_cons]
    simp only [insertBodies, parseBody_bodyToJson]
    rw [hup, ih (pre ++ [(k, b)]) hid2 hfresh2 hnodup2, List.append_assoc, List.singleton_append]

/-- Claim C2 (amended): exporting through `serializeToJson` and importing the
record through `deserializeFromJson` succeeds and reproduces the exported
engine state exactly — same bodies (count, identifiers, every field),
gravity, solver settings and flags — whatever state the importing engine held
before; only the transient contact list is cleared. -/
theorem serialize_deserialize_roundtrip (st target : EngineState)
    (hid : ∀ p ∈ st.bodies, (p.2).id = p.1)
    (hnodup : (st.bodies.map Prod.fst).Nodup) :
    deserializeFromJson target (some (serializeToJson st)) =
      (true, { st with contacts := [] }) := by
  have hins : insertBodies [] (st.bodies.map (fun p => bodyToJson p.2)) = (st.bodies, true) := by
    have h := insertBodies_roundtrip st.bodies []
      hid (fun p _ q hq => absurd hq (List.not_mem_nil q)) hnodup
    simpa using h
  have hb : ((serializeToJson st).getMember "bodies").elems =
      st.bodies.map (fun p => bodyToJson p.2) := rfl
  have hg1 : (((serializeToJson st).getMember "gravity").getMember "x").asNum =
      some st.gravity.x := rfl
  have hg2 : (((serializeToJson st).getMember "gravity").getMember "y").asNum =
      some st.gravity.y := rfl
  have ht : ((serializeToJson st).getMember "timeStep").asNum = some st.timeStep := rfl
  have hvi : ((serializeToJson st).getMember "velocityIterations").asInt =
      some st.velocityIterations := by
    show Json.asInt (Json.num (st.velocityIterations : ℚ)) = some st.velocityIterations
    simp only [Json.asInt, Rat.floor_def', Rat.num_intCast, Rat.den_intCast,
      Nat.cast_one, Int.ediv_one]
  have hpi : ((serializeToJson st).getMember "positionIterations").asInt =
      some st.positionIterations := by
    show Json.asInt (Json.num (st.positionIterations : ℚ)) = some st.positionIterations
    simp only [Json.asInt, Rat.floor_def', Rat.num_intCast, Rat.den_intCast,
      Nat.cast_one, Int.ediv_one]
  have hir : ((serializeToJson st).getMember "isRunning").asBool = some st.isRunning := rfl
  have hip : ((serializeToJson st).getMember "isPaused").asBool = some st.isPaused := rfl
  simp only [deserializeFromJson, hb, hins, hg1, hg2, ht, hvi, hpi, hir, hip, if_true]

theorem serialize_deserialize_roundtrip_witness :
    deserializeFromJson inactiveState (some (serializeToJson preImportState)) =
      (true, { preImportState with contacts := [] }) :=
  serialize_deserialize_roundtrip preImportState inactiveState (by decide) (by decide)

end TetrisTowers
